import Mathlib

/-!
Verification of the safe expression evaluator (and the surrounding glue)
of `pametni_kalkulator.py`, a Tkinter "smart calculator".

The fragment of the Python `ast` module reachable from
`ast.parse(s, mode='eval')` is modelled by `PyExpr`; runtime values that
the evaluator can produce are modelled by `PyValue`.  Python integers are
modelled as `Int` (they are arbitrary precision); Python floats are
modelled as exact rationals `ℚ` — IEEE-754 rounding is outside the scope
of this model, so float arithmetic here is exact rational arithmetic.
Python complex numbers are pairs of rationals.

The model follows CPython 3.8–3.13, where `ast.Constant` exists and the
deprecated `ast.Num` class is an `isinstance` shim: `isinstance(node,
ast.Num)` holds exactly for `Constant` nodes whose value is an `int`,
`float` or `complex` but not a `bool` (CPython `Lib/ast.py`,
`_const_types` / `_const_types_not`).  Likewise `isinstance(True, int)`
holds in Python because `bool` is a subclass of `int`.  Both facts are
load-bearing for the behaviour of `safe_eval` on boolean and complex
literals.

Python's own expression parser (`ast.parse`) is host-environment code,
not part of this repository; functions that need it take the parse
outcome (`Except String PyExpr`) or a parse function as a parameter.
-/

namespace Kalkulator

/-- Value carried by a Python `ast.Constant` literal node.  These are the
constant kinds producible by CPython's expression parser: `int`, `float`,
`complex` (imaginary literals), `str`, `bytes`, `bool` (`True`/`False`),
`None` and `Ellipsis` (`...`). -/
inductive PyConstVal where
  | intC (i : Int)
  | floatC (q : ℚ)
  | complexC (re im : ℚ)
  | boolC (b : Bool)
  | strC (s : String)
  | bytesC (s : String)
  | noneC
  | ellipsisC
  deriving DecidableEq, Repr

/-- Binary operator classes of the Python `ast` module (`ast.Add`,
`ast.Sub`, `ast.Mult`, `ast.Div`, `ast.Pow`, `ast.Mod`, and the ones the
calculator does not allow). -/
inductive PyBinOp where
  | add | sub | mult | div | pow | mod
  | floorDiv | matMult | lshift | rshift | bitOr | bitXor | bitAnd
  deriving DecidableEq, Repr

/-- Unary operator classes of the Python `ast` module (`ast.UAdd`,
`ast.USub`, `ast.Not`, `ast.Invert`). -/
inductive PyUnaryOp where
  | uadd | usub | notOp | invert
  deriving DecidableEq, Repr

/-- Expression nodes of the Python `ast` module that can appear in the
result of `ast.parse(s, mode='eval')`, including the `ast.Expression`
root wrapper.  Only `expression`, `constant`, `binOp` and `unaryOp` are
handled by `safe_eval`; every other node shape falls through to its
final `raise ValueError("Nevažeći izraz.")`. -/
inductive PyExpr where
  | expression (body : PyExpr)
  | constant (v : PyConstVal)
  | binOp (left : PyExpr) (o : PyBinOp) (right : PyExpr)
  | unaryOp (o : PyUnaryOp) (operand : PyExpr)
  | name (id : String)
  | call (func : PyExpr) (args : List PyExpr)
  | attribute (value : PyExpr) (attr : String)
  | compare (left : PyExpr) (comparators : List PyExpr)
  | boolOp (values : List PyExpr)
  | ifExp (test : PyExpr) (body : PyExpr) (orelse : PyExpr)
  | lambdaE (body : PyExpr)
  | listE (elts : List PyExpr)
  | tupleE (elts : List PyExpr)
  | setE (elts : List PyExpr)
  | dictE (keys : List PyExpr) (vals : List PyExpr)
  | joinedStr (values : List PyExpr)
  | subscript (value : PyExpr) (slice : PyExpr)
  deriving Repr

/-- Runtime values the evaluator can return: Python `int`, `float`
(modelled as an exact rational), `complex` and `bool`. -/
inductive PyValue where
  | intV (i : Int)
  | floatV (q : ℚ)
  | complexV (re im : ℚ)
  | boolV (b : Bool)
  deriving DecidableEq, Repr

/-- Exceptions that the body of `safe_eval` can raise.  `unmodelled`
marks the arms where CPython produces an irrational or complex-valued
float power, which has no exact value in the rational model of floats;
no claim of the specification depends on those arms. -/
inductive EvalErr where
  | valueError (m : String)
  | zeroDivisionError (m : String)
  | typeError (m : String)
  | unmodelled (m : String)
  deriving DecidableEq, Repr

/-- The message string carried by an exception (Python `str(e)`). -/
def EvalErr.msg : EvalErr → String
  | .valueError m => m
  | .zeroDivisionError m => m
  | .typeError m => m
  | .unmodelled m => m

/-- The six binary operators present in `ALLOWED_OPERATORS`. -/
inductive AllowedBin where
  | add | sub | mult | div | pow | mod
  deriving DecidableEq, Repr

/-- The two unary operators present in `ALLOWED_OPERATORS`. -/
inductive AllowedUn where
  | uadd | usub
  deriving DecidableEq, Repr

/-- The lookup `type(node.op) in ALLOWED_OPERATORS` for binary operator
nodes, together with the function fetched on success: only `ast.Add`,
`ast.Sub`, `ast.Mult`, `ast.Div`, `ast.Pow`, `ast.Mod` are present. -/
def PyBinOp.lookupAllowed : PyBinOp → Option AllowedBin
  | .add => some .add
  | .sub => some .sub
  | .mult => some .mult
  | .div => some .div
  | .pow => some .pow
  | .mod => some .mod
  | _ => none

/-- The lookup `type(node.op) in ALLOWED_OPERATORS` for unary operator
nodes: only `ast.UAdd` (`operator.pos`) and `ast.USub` (`operator.neg`)
are present. -/
def PyUnaryOp.lookupAllowed : PyUnaryOp → Option AllowedUn
  | .uadd => some .uadd
  | .usub => some .usub
  | _ => none

/-- Numeric view of a runtime value.  Python arithmetic operators treat
`bool` operands as the `int` values 0 and 1 (`bool` subclasses `int`). -/
inductive Num3 where
  | i (a : Int)
  | f (x : ℚ)
  | c (re im : ℚ)
  deriving DecidableEq, Repr

/-- Coerce a runtime value to its numeric view. -/
def PyValue.toNum : PyValue → Num3
  | .intV a => .i a
  | .floatV x => .f x
  | .complexV a b => .c a b
  | .boolV b => .i (if b then 1 else 0)

/-- Back from the numeric view to a runtime value. -/
def Num3.toValue : Num3 → PyValue
  | .i a => .intV a
  | .f x => .floatV x
  | .c a b => .complexV a b

/-- A pair of operands after Python's binary numeric promotion:
both `int`, both `float`, or both `complex`. -/
inductive NumPair where
  | ints (a b : Int)
  | floats (x y : ℚ)
  | complexes (ar ai br bi : ℚ)
  deriving DecidableEq, Repr

/-- Python's numeric promotion for a binary operation: `bool` is read as
`int`; if either operand is `complex` both are promoted to `complex`;
otherwise if either is `float` both are promoted to `float`. -/
def promote (v w : PyValue) : NumPair :=
  match v.toNum, w.toNum with
  | .i a, .i b => .ints a b
  | .i a, .f y => .floats (a : ℚ) y
  | .f x, .i b => .floats x (b : ℚ)
  | .f x, .f y => .floats x y
  | .i a, .c br bi => .complexes (a : ℚ) 0 br bi
  | .f x, .c br bi => .complexes x 0 br bi
  | .c ar ai, .i b => .complexes ar ai (b : ℚ) 0
  | .c ar ai, .f y => .complexes ar ai y 0
  | .c ar ai, .c br bi => .complexes ar ai br bi

/-- Python `%` on two integers (`operator.mod`): floor modulo.  The
Python language reference defines `x % y` by `x == (x // y) * y + (x % y)`
with `//` the floor of the exact quotient, i.e. `x % y = x - y * ⌊x / y⌋`. -/
def pyIntMod (a b : Int) : Int :=
  a - b * ⌊(a : ℚ) / (b : ℚ)⌋

/-- Python `**` on two machine integers (`operator.pow`): a non-negative
exponent gives an exact integer power; a negative exponent gives a float
(here its exact rational value), raising `ZeroDivisionError` on base 0. -/
def intPow (a b : Int) : Except EvalErr PyValue :=
  if 0 ≤ b then .ok (.intV (a ^ b.toNat))
  else if a = 0 then .error (.zeroDivisionError "0.0 cannot be raised to a negative power")
  else .ok (.floatV ((a : ℚ) ^ b))

/-- Python `**` with float operands.  When the exponent is an integer
the result is the exact rational power.  When it is not: base 0 with a
positive exponent gives 0, base 0 with a negative exponent raises
`ZeroDivisionError`, and any other base yields an irrational or complex
float — outside the rational model, marked `unmodelled`. -/
def floatPow (x y : ℚ) : Except EvalErr PyValue :=
  if y.den = 1 then
    if x = 0 ∧ y.num < 0 then
      .error (.zeroDivisionError "0.0 cannot be raised to a negative power")
    else .ok (.floatV (x ^ y.num))
  else if x = 0 then
    if 0 < y then .ok (.floatV 0)
    else .error (.zeroDivisionError "0.0 cannot be raised to a negative power")
  else .error (.unmodelled "irrational or complex-valued float power")

/-- Python numeric semantics of the six allowed binary operators on a
promoted operand pair. -/
def binArith (o : AllowedBin) (p : NumPair) : Except EvalErr PyValue :=
  match o, p with
  | .add, .ints a b => .ok (.intV (a + b))
  | .add, .floats x y => .ok (.floatV (x + y))
  | .add, .complexes ar ai br bi => .ok (.complexV (ar + br) (ai + bi))
  | .sub, .ints a b => .ok (.intV (a - b))
  | .sub, .floats x y => .ok (.floatV (x - y))
  | .sub, .complexes ar ai br bi => .ok (.complexV (ar - br) (ai - bi))
  | .mult, .ints a b => .ok (.intV (a * b))
  | .mult, .floats x y => .ok (.floatV (x * y))
  | .mult, .complexes ar ai br bi => .ok (.complexV (ar * br - ai * bi) (ar * bi + ai * br))
  | .div, .ints a b =>
      if b = 0 then .error (.zeroDivisionError "division by zero")
      else .ok (.floatV ((a : ℚ) / (b : ℚ)))
  | .div, .floats x y =>
      if y = 0 then .error (.zeroDivisionError "float division by zero")
      else .ok (.floatV (x / y))
  | .div, .complexes ar ai br bi =>
      if br * br + bi * bi = 0 then .error (.zeroDivisionError "complex division by zero")
      else .ok (.complexV ((ar * br + ai * bi) / (br * br + bi * bi))
                          ((ai * br - ar * bi) / (br * br + bi * bi)))
  | .pow, .ints a b => intPow a b
  | .pow, .floats x y => floatPow x y
  | .pow, .complexes _ _ _ _ => .error (.unmodelled "complex power outside the rational model")
  | .mod, .ints a b =>
      if b = 0 then .error (.zeroDivisionError "integer division or modulo by zero")
      else .ok (.intV (pyIntMod a b))
  | .mod, .floats x y =>
      if y = 0 then .error (.zeroDivisionError "float modulo")
      else .ok (.floatV (x - y * (⌊x / y⌋ : ℚ)))
  | .mod, .complexes _ _ _ _ =>
      .error (.typeError "unsupported operand type for percent: complex")

/-- Application of an allowed binary operator, i.e. of the
`operator.add` / `operator.sub` / `operator.mul` / `operator.truediv` /
`operator.pow` / `operator.mod` function fetched from
`ALLOWED_OPERATORS`: Python promotes the operands numerically and
applies the operator. -/
def applyBin (o : AllowedBin) (v w : PyValue) : Except EvalErr PyValue :=
  binArith o (promote v w)

/-- Application of an allowed unary operator (`operator.pos` or
`operator.neg`).  Both are total on numeric values; `operator.pos` on a
`bool` returns the underlying `int` (Python `+True == 1`). -/
def applyUn (o : AllowedUn) (v : PyValue) : PyValue :=
  match o, v.toNum with
  | .uadd, n => n.toValue
  | .usub, .i a => .intV (-a)
  | .usub, .f x => .floatV (-x)
  | .usub, .c a b => .complexV (-a) (-b)

/-- The two literal branches of `safe_eval` on a `Constant` node, in the
source's order.  The `isinstance(node, ast.Num)` shim branch first: on
CPython ≥ 3.8 it accepts `Constant` nodes holding `int`, `float` or
`complex` — not `bool` — and returns `node.n`, the raw value.  Then the
`ast.Constant` branch: its `isinstance(node.value, (int, float))` check
also accepts `bool` (a subclass of `int`) and returns the value;
anything else raises `ValueError("Dozvoljeni su samo brojevi.")`. -/
def evalConst : PyConstVal → Except EvalErr PyValue
  | .intC i => .ok (.intV i)
  | .floatC q => .ok (.floatV q)
  | .complexC a b => .ok (.complexV a b)
  | .boolC b => .ok (.boolV b)
  | _ => .error (.valueError "Dozvoljeni su samo brojevi.")

/-- The recursive AST walk `safe_eval` of `pametni_kalkulator.py`,
branch for branch and in the source's branch order:
the `ast.Expression` unwrap; the `isinstance(node, ast.Num)` shim and
`ast.Constant` branches (`evalConst`); the `ast.BinOp` and
`ast.UnaryOp` branches with their `ALLOWED_OPERATORS` lookups; and the
final `raise ValueError("Nevažeći izraz.")` for every other node. -/
def safe_eval : PyExpr → Except EvalErr PyValue
  | .expression body => safe_eval body
  | .constant c => evalConst c
  | .binOp l o r =>
      match o.lookupAllowed with
      | none => .error (.valueError "Operator nije dozvoljen.")
      | some a =>
          match safe_eval l with
          | .error e => .error e
          | .ok lv =>
              match safe_eval r with
              | .error e => .error e
              | .ok rv => applyBin a lv rv
  | .unaryOp o e =>
      match o.lookupAllowed with
      | none => .error (.valueError "Operator nije dozvoljen.")
      | some a =>
          match safe_eval e with
          | .error er => .error er
          | .ok v => .ok (applyUn a v)
  | _ => .error (.valueError "Nevažeći izraz.")

/-- One step of Python `expr_str.replace(caret, power-token)` on the
character list: each caret character becomes two asterisks. -/
def replaceCaretList : List Char → List Char
  | [] => []
  | c :: cs =>
      if c = '^' then '*' :: '*' :: replaceCaretList cs
      else c :: replaceCaretList cs

/-- The normalization `expr_str.replace` performed by
`evaluate_expression` before parsing: every caret is replaced by the
two-character power operator token. -/
def replaceCaret (s : String) : String :=
  ⟨replaceCaretList s.data⟩

/-- The function `evaluate_expression` of `pametni_kalkulator.py`: caret
normalization, `ast.parse(expr_str, mode='eval')` (the host parser,
passed as the `parse` parameter; its failure carries the exception
message), then `safe_eval`, with the whole body wrapped in
`try/except Exception as e: raise ValueError(f"Nevažeći izraz ili
operator: {e}")` — modelled as an `Except` result carrying that uniform
message. -/
def evaluate_expression (parse : String → Except String PyExpr)
    (expr_str : String) : Except String PyValue :=
  match parse (replaceCaret expr_str) with
  | .error e => .error ("Nevažeći izraz ili operator: " ++ e)
  | .ok tree =>
      match safe_eval tree with
      | .ok v => .ok v
      | .error er => .error ("Nevažeći izraz ili operator: " ++ er.msg)

/-- Rational reading of an int-or-float runtime value (`none` for the
`bool` and `complex` values, which the specification's data model does
not consider numbers). -/
def PyValue.toRat : PyValue → Option ℚ
  | .intV i => some (i : ℚ)
  | .floatV q => some q
  | _ => none

/-- Literal values of integer or floating-point type.  This is the
closed literal set of the specification's data model (`Literal(value:
number)` with number = integer or floating point); boolean, complex,
string and all other literal kinds are outside it. -/
def PyConstVal.isIntOrFloatLit : PyConstVal → Bool
  | .intC _ => true
  | .floatC _ => true
  | _ => false

/-- Literal values that `safe_eval` actually accepts: `int` and `float`,
plus `complex` (through the `ast.Num` shim) and `bool` (because
`isinstance(True, int)` holds in Python). -/
def PyConstVal.acceptedNumeric : PyConstVal → Bool
  | .intC _ => true
  | .floatC _ => true
  | .complexC _ _ => true
  | .boolC _ => true
  | _ => false

/-- The parsed tree contains a node outside the closed set
{integer/floating-point literal, unary identity/negate, binary
add/subtract/multiply/divide/power/modulo, the `Expression` root}.
Every node kind outside that set is itself disallowed, so the traversal
only needs to descend through the allowed node shapes. -/
def containsBad : PyExpr → Bool
  | .expression body => containsBad body
  | .constant c => !c.isIntOrFloatLit
  | .binOp l o r => o.lookupAllowed.isNone || containsBad l || containsBad r
  | .unaryOp o e => o.lookupAllowed.isNone || containsBad e
  | _ => true

/-- Like `containsBad`, but with the literal set `safe_eval` really
accepts (`acceptedNumeric`): boolean and complex literals count as
allowed. -/
def containsBadAmended : PyExpr → Bool
  | .expression body => containsBadAmended body
  | .constant c => !c.acceptedNumeric
  | .binOp l o r => o.lookupAllowed.isNone || containsBadAmended l || containsBadAmended r
  | .unaryOp o e => o.lookupAllowed.isNone || containsBadAmended e
  | _ => true

/-- Well-formed arithmetic expressions of the specification: integer and
floating-point literals, unary sign, and the six allowed binary
operators.  These are exactly the trees a well-formed arithmetic input
string parses to (parentheses only group and leave no node). -/
inductive Arith where
  | intLit (i : Int)
  | floatLit (q : ℚ)
  | pos (a : Arith)
  | neg (a : Arith)
  | bin (o : AllowedBin) (l r : Arith)
  deriving DecidableEq, Repr

/-- The `ast` binary-operator class of an allowed operator. -/
def AllowedBin.toPyBinOp : AllowedBin → PyBinOp
  | .add => .add
  | .sub => .sub
  | .mult => .mult
  | .div => .div
  | .pow => .pow
  | .mod => .mod

/-- The Python syntax tree of a well-formed arithmetic expression. -/
def Arith.toPyExpr : Arith → PyExpr
  | .intLit i => .constant (.intC i)
  | .floatLit q => .constant (.floatC q)
  | .pos a => .unaryOp .uadd a.toPyExpr
  | .neg a => .unaryOp .usub a.toPyExpr
  | .bin o l r => .binOp l.toPyExpr o.toPyBinOp r.toPyExpr

/-- Mathematical reference value of `x ** y` over the rationals, from
the specification's numeric-semantics section: defined when the
exponent is an integer (negative exponents require a non-zero base);
a fractional exponent has an irrational or undefined real value, which
the specification leaves implementation-defined. -/
def powQ (x y : ℚ) : Option ℚ :=
  if y.den = 1 then
    if x = 0 ∧ y.num < 0 then none else some (x ^ y.num)
  else none

/-- Mathematical reference semantics of the six binary operators, from
the specification's words ("standard real-arithmetic rules"): exact
rational arithmetic, division and modulo undefined at a zero second
operand, `%` the floor modulo (Python's convention, which the
specification adopts by deferring to host-language numeric semantics),
`**` as in `powQ`. -/
def mathBin : AllowedBin → ℚ → ℚ → Option ℚ
  | .add, x, y => some (x + y)
  | .sub, x, y => some (x - y)
  | .mult, x, y => some (x * y)
  | .div, x, y => if y = 0 then none else some (x / y)
  | .pow, x, y => powQ x y
  | .mod, x, y => if y = 0 then none else some (x - y * (⌊x / y⌋ : ℚ))

/-- The mathematically correct value of a well-formed arithmetic
expression, when defined. -/
def Arith.val : Arith → Option ℚ
  | .intLit i => some (i : ℚ)
  | .floatLit q => some q
  | .pos a => a.val
  | .neg a => (a.val).map (fun x => -x)
  | .bin o l r =>
      match l.val, r.val with
      | some x, some y => mathBin o x y
      | _, _ => none

/-- Is the runtime value numerically zero (Python treats `False` and
`0.0` as zero divisors too)? -/
def PyValue.isZeroNum : PyValue → Bool
  | v =>
      match v.toNum with
      | .i a => a == 0
      | .f x => x == 0
      | .c re im => re == 0 && im == 0

/-- Depth of the recursion tree of `safe_eval`: the walk only recurses
through `Expression`, `BinOp` and `UnaryOp` nodes; every other node is a
leaf of the recursion (a literal or an immediate failure). -/
def PyExpr.evalDepth : PyExpr → Nat
  | .expression body => body.evalDepth + 1
  | .binOp l _ r => max l.evalDepth r.evalDepth + 1
  | .unaryOp _ e => e.evalDepth + 1
  | _ => 1

/-- Fuel-indexed variant of `safe_eval`, recursing only on strictly
smaller fuel: `none` when the fuel runs out before the walk finishes,
`some` of the evaluation outcome otherwise. -/
def safeEvalFuel : Nat → PyExpr → Option (Except EvalErr PyValue)
  | 0, _ => none
  | n + 1, t =>
      match t with
      | .expression body => safeEvalFuel n body
      | .constant c => some (evalConst c)
      | .binOp l o r =>
          match o.lookupAllowed with
          | none => some (.error (.valueError "Operator nije dozvoljen."))
          | some a =>
              match safeEvalFuel n l with
              | none => none
              | some (.error e) => some (.error e)
              | some (.ok lv) =>
                  match safeEvalFuel n r with
                  | none => none
                  | some (.error e) => some (.error e)
                  | some (.ok rv) => some (applyBin a lv rv)
      | .unaryOp o e =>
          match o.lookupAllowed with
          | none => some (.error (.valueError "Operator nije dozvoljen."))
          | some a =>
              match safeEvalFuel n e with
              | none => none
              | some (.error er) => some (.error er)
              | some (.ok v) => some (.ok (applyUn a v))
      | _ => some (.error (.valueError "Nevažeći izraz."))

/-- The history line formatted by `SmartCalcApp.append_history`:
`"[" + ts + "] (" + mode + ") " + query + " -> " + result + newline`. -/
def historyLine (ts mode query result : String) : String :=
  "[" ++ ts ++ "] (" ++ mode ++ ") " ++ query ++ " -> " ++ result ++ "\n"

/-- `SmartCalcApp.append_history`: appends the formatted line to the
in-memory ordered list `self.history`.  The timestamp produced by
`datetime.datetime.now().strftime(...)` is passed as a parameter, and
the mirrored insertion into the read-only `history_text` widget is
presentation-only and out of scope. -/
def append_history (history : List String) (ts mode query result : String) : List String :=
  history ++ [historyLine ts mode query result]

/-- Python `str.strip()`: drop leading and trailing whitespace. -/
def stripStr (s : String) : String :=
  ⟨((s.data.dropWhile Char.isWhitespace).reverse.dropWhile Char.isWhitespace).reverse⟩

/-- The history effect of `SmartCalcApp.solve`: the query is the
stripped text-field content; an empty query is blocked with a warning
box and leaves the history untouched; otherwise the mode dispatch
computes the result text (`dispatch mode query` stands for the branch
on `"Izraz"` / `"Jednačina"` / the text mode, rendering
`evaluate_expression`, `solve_equation` or `solve_text_problem` output
to the text shown to the user) and `append_history` is called exactly
once. -/
def solve_step (dispatch : String → String → String) (ts mode rawQuery : String)
    (history : List String) : List String :=
  let query := stripStr rawQuery
  if query = "" then history
  else append_history history ts mode query (dispatch mode query)

/-- Python `equation_str.split(chr(61), 1)`: the text before the first
equals sign, and everything after it. -/
def splitFirstEq (s : String) : String × String :=
  match s.splitOn "=" with
  | [] => (s, "")
  | [l] => (l, "")
  | l :: rest => (l, String.intercalate "=" rest)

/-- The function `solve_equation` of `pametni_kalkulator.py`.  The sympy
collaborator is external, so its operations are parameters: `sympifyF`
parses one side (and may raise, carrying a message), `freeSymbolsF`
lists the union of the free symbols of both sides, `evalfDiffF`
evaluates `(left - right).evalf()` numerically (a rational in this
model), and `solveF` renders `solve(Eq(left, right), vars)` as text.
The whole body is wrapped in `try/except Exception as e: return
f"Greška pri rešavanju: {e}"`, so every raise becomes that message. -/
def solve_equation {α : Type} (sympifyF : String → Except String α)
    (freeSymbolsF : α → α → List String)
    (evalfDiffF : α → α → Except String ℚ)
    (solveF : α → α → List String → Except String String)
    (equation_str : String) : String :=
  let s := replaceCaret equation_str
  if !s.contains '=' then "Greška pri rešavanju: Jednačina mora sadržati '='."
  else
    let parts := splitFirstEq s
    match sympifyF parts.1 with
    | .error e => "Greška pri rešavanju: " ++ e
    | .ok left =>
        match sympifyF parts.2 with
        | .error e => "Greška pri rešavanju: " ++ e
        | .ok right =>
            match freeSymbolsF left right with
            | [] =>
                match evalfDiffF left right with
                | .error e => "Greška pri rešavanju: " ++ e
                | .ok v =>
                    if |v| < 1 / 1000000000 then
                      "Istinitost: identično tačno (nema promenljivih)."
                    else "Nema rešenja (nije jednako)."
            | v :: vs =>
                match solveF left right (v :: vs) with
                | .error e => "Greška pri rešavanju: " ++ e
                | .ok sol => "Rešenje: " ++ sol

/-- The digit filter inside `solve_text_problem`: every character that
is neither a digit nor whitespace becomes a space (the model reads
`c.isdigit()` as the ASCII digits). -/
def digitFilter (c : Char) : Char :=
  if c.isDigit || c.isWhitespace then c else ' '

/-- Python `int()` on a non-empty all-digit token. -/
def digitsToNat (s : String) : Nat :=
  s.foldl (fun n c => n * 10 + (c.toNat - 48)) 0

/-- The number extraction of `solve_text_problem`: map every non-digit
non-space character to a space, split on whitespace, drop empty tokens,
read each token as an integer. -/
def extractNums (t : String) : List Nat :=
  (((t.data.map digitFilter).asString.split Char.isWhitespace).filter
      (fun s => s ≠ "")).map digitsToNat

/-- Python `str.lower()` (the model lowers ASCII letters; the Serbian
letters in the keywords are already lower-case in the source). -/
def lowerStr (s : String) : String :=
  ⟨s.data.map Char.toLower⟩

/-- Python `pat in t` substring containment. -/
def containsSub (t pat : String) : Bool :=
  (t.splitOn pat).length ≥ 2

/-- The function `solve_text_problem` of `pametni_kalkulator.py`: lower
the text; if it mentions km/h-style keywords and at least two numbers
are extracted, multiply the first two as speed times time; otherwise if
it mentions area keywords and two numbers are extracted, multiply them
as the rectangle area; otherwise the fixed cannot-solve message.  (The
`try/except: pass` around each extraction falls through to the next
branch; in the model the extraction is total.) -/
def solve_text_problem (text : String) : String :=
  let t := lowerStr text
  let kmBranch : Option String :=
    if containsSub t "km/h" || containsSub t "kmh" || (containsSub t "km" && containsSub t "h") then
      match extractNums t with
      | a :: b :: _ => some ("Rezultat: " ++ toString (a * b) ++ " (km)")
      | _ => none
    else none
  match kmBranch with
  | some r => r
  | none =>
      let areaBranch : Option String :=
        if containsSub t "povrsin" || containsSub t "površin" || containsSub t "area" then
          match extractNums t with
          | a :: b :: _ => some ("Površina = " ++ toString (a * b))
          | _ => none
        else none
      match areaBranch with
      | some r => r
      | none => "Ne mogu automatski rešiti ovaj tekstualni zadatak (probaj preciznije)."


theorem lookup_toPyBinOp (o : AllowedBin) : o.toPyBinOp.lookupAllowed = some o := by
  cases o <;> rfl

theorem promote_of_toRat (v w : PyValue) (x y : ℚ)
    (hv : v.toRat = some x) (hw : w.toRat = some y) :
    (∃ a b : Int, promote v w = .ints a b ∧ (a : ℚ) = x ∧ (b : ℚ) = y) ∨
    promote v w = .floats x y := by
  cases v <;> cases w <;> simp_all [PyValue.toRat, promote, PyValue.toNum]
  exact ⟨_, _, ⟨rfl, rfl⟩, hv, hw⟩

theorem binArith_floats_sound (o : AllowedBin) (x y z : ℚ)
    (hz : mathBin o x y = some z) :
    binArith o (.floats x y) = .ok (.floatV z) := by
  cases o
  case add => simp_all [mathBin, binArith]
  case sub => simp_all [mathBin, binArith]
  case mult => simp_all [mathBin, binArith]
  case div =>
    simp only [mathBin] at hz
    by_cases hy : y = 0
    · rw [if_pos hy] at hz
      cases hz
    · rw [if_neg hy] at hz
      injection hz with hz
      simp [binArith, hy, hz]
  case mod =>
    simp only [mathBin] at hz
    by_cases hy : y = 0
    · rw [if_pos hy] at hz
      cases hz
    · rw [if_neg hy] at hz
      injection hz with hz
      simp [binArith, hy, hz]
  case pow =>
    simp only [mathBin, powQ] at hz
    by_cases hd : y.den = 1
    · rw [if_pos hd] at hz
      by_cases hc : x = 0 ∧ y.num < 0
      · rw [if_pos hc] at hz
        cases hz
      · rw [if_neg hc] at hz
        injection hz with hz
        show floatPow x y = .ok (.floatV z)
        rw [floatPow, if_pos hd, if_neg hc, hz]
    · rw [if_neg hd] at hz
      cases hz

theorem binArith_ints_sound (o : AllowedBin) (a b : Int) (z : ℚ)
    (hz : mathBin o (a : ℚ) (b : ℚ) = some z) :
    ∃ u, binArith o (.ints a b) = .ok u ∧ u.toRat = some z := by
  cases o
  case add =>
    refine ⟨.intV (a + b), rfl, ?_⟩
    simp only [mathBin, Option.some_inj] at hz
    simp only [PyValue.toRat, Option.some_inj]
    push_cast
    exact hz
  case sub =>
    refine ⟨.intV (a - b), rfl, ?_⟩
    simp only [mathBin, Option.some_inj] at hz
    simp only [PyValue.toRat, Option.some_inj]
    push_cast
    exact hz
  case mult =>
    refine ⟨.intV (a * b), rfl, ?_⟩
    simp only [mathBin, Option.some_inj] at hz
    simp only [PyValue.toRat, Option.some_inj]
    push_cast
    exact hz
  case div =>
    simp only [mathBin] at hz
    by_cases hy : (b : ℚ) = 0
    · rw [if_pos hy] at hz
      cases hz
    · rw [if_neg hy] at hz
      injection hz with hz
      have hb : ¬ (b = 0) := fun h0 => hy (by rw [h0]; norm_num)
      exact ⟨.floatV ((a : ℚ) / (b : ℚ)), by simp [binArith, hb], by simp [PyValue.toRat, hz]⟩
  case mod =>
    simp only [mathBin] at hz
    by_cases hy : (b : ℚ) = 0
    · rw [if_pos hy] at hz
      cases hz
    · rw [if_neg hy] at hz
      injection hz with hz
      have hb : ¬ (b = 0) := fun h0 => hy (by rw [h0]; norm_num)
      refine ⟨.intV (pyIntMod a b), by simp [binArith, hb], ?_⟩
      simp only [PyValue.toRat, Option.some_inj, pyIntMod]
      push_cast
      exact hz
  case pow =>
    simp only [mathBin, powQ] at hz
    have hden : ((b : ℚ)).den = 1 := rfl
    have hnum : ((b : ℚ)).num = b := rfl
    rw [hden, hnum] at hz
    rw [if_pos rfl] at hz
    by_cases hb : 0 ≤ b
    · have hcond : ¬ ((a : ℚ) = 0 ∧ b < 0) := by
        rintro ⟨_, hlt⟩
        omega
      rw [if_neg hcond] at hz
      injection hz with hz
      refine ⟨.intV (a ^ b.toNat), by simp [binArith, intPow, hb], ?_⟩
      simp only [PyValue.toRat, Option.some_inj]
      rw [← hz]
      push_cast
      rw [← zpow_natCast, Int.toNat_of_nonneg hb]
    · push_neg at hb
      by_cases ha : a = 0
      · subst ha
        rw [if_pos ⟨by norm_num, hb⟩] at hz
        cases hz
      · have hcond : ¬ ((a : ℚ) = 0 ∧ b < 0) := by
          rintro ⟨hc, _⟩
          exact ha (by exact_mod_cast hc)
        rw [if_neg hcond] at hz
        injection hz with hz
        refine ⟨.floatV ((a : ℚ) ^ b), ?_, by simp [PyValue.toRat, hz]⟩
        simp [binArith, intPow, not_le.mpr hb, ha]

theorem applyBin_sound (o : AllowedBin) (v w : PyValue) (x y z : ℚ)
    (hv : v.toRat = some x) (hw : w.toRat = some y) (hz : mathBin o x y = some z) :
    ∃ u, applyBin o v w = .ok u ∧ u.toRat = some z := by
  rcases promote_of_toRat v w x y hv hw with ⟨a, b, hp, hx, hy⟩ | hp
  · subst hx hy
    rw [applyBin, hp]
    exact binArith_ints_sound o a b z hz
  · rw [applyBin, hp]
    exact ⟨.floatV z, binArith_floats_sound o x y z hz, rfl⟩

theorem applyUn_toRat (v : PyValue) (x : ℚ) (hv : v.toRat = some x) :
    (applyUn .uadd v).toRat = some x ∧ (applyUn .usub v).toRat = some (-x) := by
  cases v with
  | intV a =>
      simp only [PyValue.toRat, Option.some_inj] at hv
      constructor
      · simp [applyUn, PyValue.toNum, Num3.toValue, PyValue.toRat, hv]
      · simp only [applyUn, PyValue.toNum, PyValue.toRat, Option.some_inj]
        push_cast
        rw [hv]
  | floatV q =>
      simp only [PyValue.toRat, Option.some_inj] at hv
      constructor
      · simp [applyUn, PyValue.toNum, Num3.toValue, PyValue.toRat, hv]
      · simp [applyUn, PyValue.toNum, PyValue.toRat, hv]
  | complexV a b => simp [PyValue.toRat] at hv
  | boolV b => simp [PyValue.toRat] at hv

theorem safe_eval_unaryOp_ok (e : PyExpr) (o : AllowedUn) (v : PyValue)
    (he : safe_eval e = .ok v) :
    safe_eval (.unaryOp (match o with | .uadd => PyUnaryOp.uadd | .usub => PyUnaryOp.usub) e)
      = .ok (applyUn o v) := by
  cases o <;> simp [safe_eval, PyUnaryOp.lookupAllowed, he]

theorem safe_eval_binOp_ok (l r : PyExpr) (o : AllowedBin) (lv rv : PyValue)
    (hl : safe_eval l = .ok lv) (hr : safe_eval r = .ok rv) :
    safe_eval (.binOp l o.toPyBinOp r) = applyBin o lv rv := by
  simp [safe_eval, lookup_toPyBinOp, hl, hr]

theorem arith_safe_eval (a : Arith) (x : ℚ) (h : a.val = some x) :
    ∃ v, safe_eval a.toPyExpr = Except.ok v ∧ v.toRat = some x := by
  induction a generalizing x with
  | intLit i =>
      refine ⟨.intV i, rfl, ?_⟩
      simp only [Arith.val, Option.some_inj] at h
      simp [PyValue.toRat, h]
  | floatLit q =>
      refine ⟨.floatV q, rfl, ?_⟩
      simp only [Arith.val, Option.some_inj] at h
      simp [PyValue.toRat, h]
  | pos a ih =>
      simp only [Arith.val] at h
      obtain ⟨v, hs, hr⟩ := ih x h
      exact ⟨applyUn .uadd v, safe_eval_unaryOp_ok a.toPyExpr .uadd v hs, (applyUn_toRat v x hr).1⟩
  | neg a ih =>
      simp only [Arith.val] at h
      rcases hv : a.val with _ | y
      · rw [hv] at h
        cases h
      · rw [hv] at h
        injection h with h
        obtain ⟨v, hs, hr⟩ := ih y hv
        refine ⟨applyUn .usub v, safe_eval_unaryOp_ok a.toPyExpr .usub v hs, ?_⟩
        rw [← h]
        exact (applyUn_toRat v y hr).2
  | bin o l r ihl ihr =>
      simp only [Arith.val] at h
      rcases hlv : l.val with _ | xl
      · rw [hlv] at h
        cases h
      rcases hrv : r.val with _ | yr
      · rw [hlv, hrv] at h
        cases h
      rw [hlv, hrv] at h
      obtain ⟨lv, hsl, hrl⟩ := ihl xl hlv
      obtain ⟨rv, hsr, hrr⟩ := ihr yr hrv
      obtain ⟨u, hu, hur⟩ := applyBin_sound o lv rv xl yr x hrl hrr h
      refine ⟨u, ?_, hur⟩
      rw [Arith.toPyExpr, safe_eval_binOp_ok l.toPyExpr r.toPyExpr o lv rv hsl hsr]
      exact hu

theorem evaluate_expression_of_error (t : PyExpr) (s : String) (e : EvalErr)
    (h : safe_eval t = .error e) :
    evaluate_expression (fun _ => Except.ok t) s
      = .error ("Nevažeći izraz ili operator: " ++ e.msg) := by
  simp [evaluate_expression, h]

theorem evaluate_expression_of_ok (t : PyExpr) (s : String) (v : PyValue)
    (h : safe_eval t = .ok v) :
    evaluate_expression (fun _ => Except.ok t) s = .ok v := by
  simp [evaluate_expression, h]

theorem containsBadAmended_fails : ∀ t : PyExpr, containsBadAmended t = true →
    ∃ e, safe_eval t = Except.error e
  | .expression b, h => containsBadAmended_fails b h
  | .constant c, h => by
      cases c <;>
        simp only [containsBadAmended, PyConstVal.acceptedNumeric, Bool.not_true,
          Bool.false_eq_true] at h <;>
        exact ⟨_, rfl⟩
  | .binOp l o r, h => by
      rcases ho : o.lookupAllowed with _ | a
      · exact ⟨.valueError "Operator nije dozvoljen.", by simp [safe_eval, ho]⟩
      · have h2 : containsBadAmended l = true ∨ containsBadAmended r = true := by
          simp only [containsBadAmended, ho, Option.isNone_some, Bool.false_or,
            Bool.or_eq_true] at h
          exact h
        rcases h2 with hl | hr
        · obtain ⟨e, he⟩ := containsBadAmended_fails l hl
          exact ⟨e, by simp [safe_eval, ho, he]⟩
        · rcases hsl : safe_eval l with el | lv
          · exact ⟨el, by simp [safe_eval, ho, hsl]⟩
          · obtain ⟨e, he⟩ := containsBadAmended_fails r hr
            exact ⟨e, by simp [safe_eval, ho, hsl, he]⟩
  | .unaryOp o e, h => by
      rcases ho : o.lookupAllowed with _ | a
      · exact ⟨.valueError "Operator nije dozvoljen.", by simp [safe_eval, ho]⟩
      · have h2 : containsBadAmended e = true := by
          simp only [containsBadAmended, ho, Option.isNone_some, Bool.false_or] at h
          exact h
        obtain ⟨er, he⟩ := containsBadAmended_fails e h2
        exact ⟨er, by simp [safe_eval, ho, he]⟩
  | .name _, _ => ⟨_, rfl⟩
  | .call _ _, _ => ⟨_, rfl⟩
  | .attribute _ _, _ => ⟨_, rfl⟩
  | .compare _ _, _ => ⟨_, rfl⟩
  | .boolOp _, _ => ⟨_, rfl⟩
  | .ifExp _ _ _, _ => ⟨_, rfl⟩
  | .lambdaE _, _ => ⟨_, rfl⟩
  | .listE _, _ => ⟨_, rfl⟩
  | .tupleE _, _ => ⟨_, rfl⟩
  | .setE _, _ => ⟨_, rfl⟩
  | .dictE _ _, _ => ⟨_, rfl⟩
  | .joinedStr _, _ => ⟨_, rfl⟩
  | .subscript _ _, _ => ⟨_, rfl⟩

theorem safeEvalFuel_complete : ∀ (t : PyExpr) (fuel : Nat), t.evalDepth ≤ fuel →
    safeEvalFuel fuel t = some (safe_eval t)
  | t, 0, h => absurd h (by cases t <;> simp [PyExpr.evalDepth])
  | .expression b, n + 1, h => by
      have hb : b.evalDepth ≤ n := Nat.succ_le_succ_iff.mp h
      show safeEvalFuel n b = some (safe_eval b)
      exact safeEvalFuel_complete b n hb
  | .constant _, _ + 1, _ => rfl
  | .binOp l o r, n + 1, h => by
      have hlr : max l.evalDepth r.evalDepth ≤ n := Nat.succ_le_succ_iff.mp h
      have hl : l.evalDepth ≤ n := le_trans (le_max_left _ _) hlr
      have hr : r.evalDepth ≤ n := le_trans (le_max_right _ _) hlr
      have Hl := safeEvalFuel_complete l n hl
      have Hr := safeEvalFuel_complete r n hr
      rcases ho : o.lookupAllowed with _ | a
      · simp [safeEvalFuel, safe_eval, ho]
      · rcases hsl : safe_eval l with el | lv
        · rw [hsl] at Hl
          simp [safeEvalFuel, safe_eval, ho, Hl, hsl]
        · rw [hsl] at Hl
          rcases hsr : safe_eval r with er | rv
          · rw [hsr] at Hr
            simp [safeEvalFuel, safe_eval, ho, Hl, Hr, hsl, hsr]
          · rw [hsr] at Hr
            simp [safeEvalFuel, safe_eval, ho, Hl, Hr, hsl, hsr]
  | .unaryOp o e, n + 1, h => by
      have he : e.evalDepth ≤ n := Nat.succ_le_succ_iff.mp h
      have He := safeEvalFuel_complete e n he
      rcases ho : o.lookupAllowed with _ | a
      · simp [safeEvalFuel, safe_eval, ho]
      · rcases hse : safe_eval e with er | v
        · rw [hse] at He
          simp [safeEvalFuel, safe_eval, ho, He, hse]
        · rw [hse] at He
          simp [safeEvalFuel, safe_eval, ho, He, hse]
  | .name _, _ + 1, _ => rfl
  | .call _ _, _ + 1, _ => rfl
  | .attribute _ _, _ + 1, _ => rfl
  | .compare _ _, _ + 1, _ => rfl
  | .boolOp _, _ + 1, _ => rfl
  | .ifExp _ _ _, _ + 1, _ => rfl
  | .lambdaE _, _ + 1, _ => rfl
  | .listE _, _ + 1, _ => rfl
  | .tupleE _, _ + 1, _ => rfl
  | .setE _, _ + 1, _ => rfl
  | .dictE _ _, _ + 1, _ => rfl
  | .joinedStr _, _ + 1, _ => rfl
  | .subscript _ _, _ + 1, _ => rfl

theorem replaceCaretList_idem (l : List Char) :
    replaceCaretList (replaceCaretList l) = replaceCaretList l := by
  induction l with
  | nil => rfl
  | cons c cs ih =>
      by_cases hc : c = '^'
      · subst hc
        simp [replaceCaretList, ih]
      · simp [replaceCaretList, hc, ih]

theorem replaceCaret_idem (s : String) : replaceCaret (replaceCaret s) = replaceCaret s :=
  congrArg String.mk (replaceCaretList_idem s.data)

theorem applyBin_zero_divisor (lv v : PyValue) (h : v.isZeroNum = true) :
    (∃ e, applyBin .div lv v = Except.error e) ∧
    (∃ e, applyBin .mod lv v = Except.error e) := by
  have h3 : v.toNum = .i 0 ∨ v.toNum = .f 0 ∨ v.toNum = .c 0 0 := by
    rcases v with a | x | ⟨re, im⟩ | b
    · simp_all [PyValue.isZeroNum, PyValue.toNum]
    · simp_all [PyValue.isZeroNum, PyValue.toNum]
    · simp_all [PyValue.isZeroNum, PyValue.toNum]
    · cases b <;> simp_all [PyValue.isZeroNum, PyValue.toNum]
  rcases h3 with h0 | h0 | h0 <;> rcases hl : lv.toNum with a | x | ⟨re, im⟩ <;>
    simp [applyBin, promote, hl, h0, binArith]

theorem safe_eval_div_mod_zero (l r : PyExpr) (v : PyValue)
    (hr : safe_eval r = Except.ok v) (hz : v.isZeroNum = true) :
    (∃ e, safe_eval (PyExpr.binOp l .div r) = Except.error e) ∧
    (∃ e, safe_eval (PyExpr.binOp l .mod r) = Except.error e) := by
  rcases hsl : safe_eval l with el | lv
  · constructor <;> exact ⟨el, by simp [safe_eval, PyBinOp.lookupAllowed, hsl]⟩
  · obtain ⟨⟨e1, h1⟩, ⟨e2, h2⟩⟩ := applyBin_zero_divisor lv v hz
    constructor
    · refine ⟨e1, ?_⟩
      simp only [safe_eval, PyBinOp.lookupAllowed, hsl, hr]
      exact h1
    · refine ⟨e2, ?_⟩
      simp only [safe_eval, PyBinOp.lookupAllowed, hsl, hr]
      exact h2

/-- C4: a division or modulo whose right operand evaluates to a
numeric zero makes `safe_eval` raise, for every left operand, and
`evaluate_expression` turns that raise into the uniform failure
message.  No arm of the arithmetic model produces an infinite or NaN
value: `PyValue` has no such element, and the zero-divisor arms of
`binArith` raise instead of returning. -/
theorem div_mod_zero_failure (l r : PyExpr) (s : String) (v : PyValue)
    (hr : safe_eval r = Except.ok v) (hz : v.isZeroNum = true) :
    (∃ e, safe_eval (PyExpr.expression (.binOp l .div r)) = Except.error e) ∧
    (∃ e, safe_eval (PyExpr.expression (.binOp l .mod r)) = Except.error e) ∧
    (∃ c, evaluate_expression (fun _ => Except.ok (PyExpr.expression (.binOp l .div r))) s
        = Except.error ("Nevažeći izraz ili operator: " ++ c)) := by
  obtain ⟨⟨e1, h1⟩, ⟨e2, h2⟩⟩ := safe_eval_div_mod_zero l r v hr hz
  exact ⟨⟨e1, h1⟩, ⟨e2, h2⟩,
    ⟨e1.msg, evaluate_expression_of_error (PyExpr.expression (.binOp l .div r)) s e1 h1⟩⟩

theorem div_mod_zero_failure_witness :
    safe_eval (PyExpr.constant (.intC 0)) = Except.ok (PyValue.intV 0) ∧
    PyValue.isZeroNum (.intV 0) = true ∧
    ((∃ e, safe_eval (PyExpr.expression (.binOp (.constant (.intC 5)) .div (.constant (.intC 0)))) = Except.error e) ∧
     (∃ e, safe_eval (PyExpr.expression (.binOp (.constant (.intC 5)) .mod (.constant (.intC 0)))) = Except.error e) ∧
     (∃ c, evaluate_expression
          (fun _ => Except.ok (PyExpr.expression (.binOp (.constant (.intC 5)) .div (.constant (.intC 0))))) "5/0"
        = Except.error ("Nevažeći izraz ili operator: " ++ c))) ∧
    evaluate_expression
        (fun _ => Except.ok (PyExpr.expression (.binOp (.constant (.intC 5)) .div (.constant (.intC 0))))) "5/0"
      = Except.error ("Nevažeći izraz ili operator: " ++ "division by zero") :=
  ⟨rfl, rfl,
   div_mod_zero_failure (.constant (.intC 5)) (.constant (.intC 0)) "5/0" (.intV 0) rfl rfl,
   rfl⟩

/-- C1 counterexample: the input True parses to a boolean constant node,
which is outside the closed set (a boolean literal is not an
integer/floating-point literal), yet the evaluator returns the value
True rather than a failure — `isinstance(True, int)` holds in Python, so
the `Constant` branch accepts it. -/
theorem boolean_literal_evaluates :
    containsBad (PyExpr.expression (.constant (.boolC true))) = true ∧
    evaluate_expression (fun _ => Except.ok (PyExpr.expression (.constant (.boolC true)))) "True"
      = Except.ok (PyValue.boolV true) :=
  ⟨rfl, rfl⟩

/-- C1 (amended): every tree containing a node outside the closed set as
actually accepted by the code — which adds boolean and complex literals
to the claimed set — makes `safe_eval` raise, and `evaluate_expression`
return the uniform failure; the walk has no other outcome and no
code-execution path. -/
theorem disallowed_construct_rejection (t : PyExpr) (s : String)
    (h : containsBadAmended t = true) :
    (∃ e, safe_eval t = Except.error e) ∧
    (∃ c, evaluate_expression (fun _ => Except.ok t) s
        = Except.error ("Nevažeći izraz ili operator: " ++ c)) := by
  obtain ⟨e, he⟩ := containsBadAmended_fails t h
  exact ⟨⟨e, he⟩, ⟨e.msg, evaluate_expression_of_error t s e he⟩⟩

theorem disallowed_construct_rejection_witness :
    (containsBadAmended (PyExpr.expression (.call (.name "__import__") [.constant (.strC "os")])) = true ∧
      ((∃ e, safe_eval (PyExpr.expression (.call (.name "__import__") [.constant (.strC "os")])) = Except.error e) ∧
       (∃ c, evaluate_expression
            (fun _ => Except.ok (PyExpr.expression (.call (.name "__import__") [.constant (.strC "os")])))
            "__import__(os)" = Except.error ("Nevažeći izraz ili operator: " ++ c)))) ∧
    (containsBadAmended (PyExpr.expression (.binOp (.name "x") .add (.constant (.intC 1)))) = true ∧
      ((∃ e, safe_eval (PyExpr.expression (.binOp (.name "x") .add (.constant (.intC 1)))) = Except.error e) ∧
       (∃ c, evaluate_expression
            (fun _ => Except.ok (PyExpr.expression (.binOp (.name "x") .add (.constant (.intC 1)))))
            "x+1" = Except.error ("Nevažeći izraz ili operator: " ++ c)))) ∧
    (containsBadAmended (PyExpr.expression (.listE [.constant (.intC 1), .constant (.intC 2), .constant (.intC 3)])) = true ∧
      ((∃ e, safe_eval (PyExpr.expression (.listE [.constant (.intC 1), .constant (.intC 2), .constant (.intC 3)])) = Except.error e) ∧
       (∃ c, evaluate_expression
            (fun _ => Except.ok (PyExpr.expression (.listE [.constant (.intC 1), .constant (.intC 2), .constant (.intC 3)])))
            "[1,2,3]" = Except.error ("Nevažeći izraz ili operator: " ++ c)))) ∧
    (containsBadAmended (PyExpr.expression (.ifExp (.constant (.boolC true)) (.constant (.intC 1)) (.constant (.intC 2)))) = true ∧
      ((∃ e, safe_eval (PyExpr.expression (.ifExp (.constant (.boolC true)) (.constant (.intC 1)) (.constant (.intC 2)))) = Except.error e) ∧
       (∃ c, evaluate_expression
            (fun _ => Except.ok (PyExpr.expression (.ifExp (.constant (.boolC true)) (.constant (.intC 1)) (.constant (.intC 2)))))
            "1 if True else 2" = Except.error ("Nevažeći izraz ili operator: " ++ c)))) :=
  ⟨⟨rfl, disallowed_construct_rejection _ "__import__(os)" rfl⟩,
   ⟨rfl, disallowed_construct_rejection _ "x+1" rfl⟩,
   ⟨rfl, disallowed_construct_rejection _ "[1,2,3]" rfl⟩,
   ⟨rfl, disallowed_construct_rejection _ "1 if True else 2" rfl⟩⟩

/-- C2 counterexample: the complex literal 1j is not of integer or
floating-point type, yet the evaluator accepts it and returns the
complex value — the deprecated `ast.Num` shim intercepts `Constant`
nodes holding `complex` before the `(int, float)` type check runs. -/
theorem complex_literal_evaluates :
    PyConstVal.isIntOrFloatLit (.complexC 0 1) = false ∧
    evaluate_expression (fun _ => Except.ok (PyExpr.expression (.constant (.complexC 0 1)))) "1j"
      = Except.ok (PyValue.complexV 0 1) :=
  ⟨rfl, rfl⟩

/-- C2 (amended): a literal node is accepted exactly when its value is
of integer, floating-point, boolean or complex type (booleans because
`bool` subclasses `int`; complexes through the `ast.Num` shim); every
other literal raises `ValueError("Dozvoljeni su samo brojevi.")` at the
literal node. -/
theorem literal_acceptance (c : PyConstVal) :
    (c.acceptedNumeric = true → ∃ v, safe_eval (.constant c) = Except.ok v) ∧
    (c.acceptedNumeric = false →
      safe_eval (.constant c) = Except.error (.valueError "Dozvoljeni su samo brojevi.")) := by
  cases c <;> simp [PyConstVal.acceptedNumeric, safe_eval, evalConst]

theorem literal_acceptance_witness :
    (∃ v, safe_eval (.constant (.intC 7)) = Except.ok v) ∧
    safe_eval (.constant (.strC "a")) = Except.error (.valueError "Dozvoljeni su samo brojevi.") :=
  ⟨(literal_acceptance (.intC 7)).1 rfl, (literal_acceptance (.strC "a")).2 rfl⟩

/-- C3: for every well-formed arithmetic expression whose mathematical
value is defined (no zero divisor, integer exponents), the pipeline
returns a number whose rational reading is exactly that value. -/
theorem arith_eval_correct (a : Arith) (x : ℚ) (s : String) (h : a.val = some x) :
    ∃ v, evaluate_expression (fun _ => Except.ok (PyExpr.expression a.toPyExpr)) s = Except.ok v ∧
      v.toRat = some x := by
  obtain ⟨v, hs, hr⟩ := arith_safe_eval a x h
  exact ⟨v, evaluate_expression_of_ok (PyExpr.expression a.toPyExpr) s v hs, hr⟩

/-- The well-formed arithmetic expression (5 + 3) * 2 - 4**2. -/
def ex53 : Arith :=
  .bin .sub (.bin .mult (.bin .add (.intLit 5) (.intLit 3)) (.intLit 2))
    (.bin .pow (.intLit 4) (.intLit 2))

theorem ex53_val : ex53.val = some 0 := by
  simp only [ex53, Arith.val, mathBin, powQ]
  norm_num

theorem arith_eval_correct_witness :
    ex53.val = some 0 ∧
    (∃ v, evaluate_expression (fun _ => Except.ok (PyExpr.expression ex53.toPyExpr))
        "(5 + 3) * 2 - 4**2" = Except.ok v ∧ v.toRat = some 0) ∧
    evaluate_expression (fun _ => Except.ok (PyExpr.expression ex53.toPyExpr))
        "(5 + 3) * 2 - 4**2" = Except.ok (PyValue.intV 0) :=
  ⟨ex53_val, arith_eval_correct ex53 0 "(5 + 3) * 2 - 4**2" ex53_val, by rfl⟩

/-- C5: the pipeline result is always either a value or the single
uniform failure string carrying the underlying cause; in particular a
parse failure and an evaluator raise each surface with that envelope. -/
theorem uniform_failure_envelope (parse : String → Except String PyExpr) (s : String) :
    ((∃ v, evaluate_expression parse s = Except.ok v) ∨
     (∃ c, evaluate_expression parse s = Except.error ("Nevažeći izraz ili operator: " ++ c))) ∧
    (∀ e, parse (replaceCaret s) = Except.error e →
      evaluate_expression parse s = Except.error ("Nevažeći izraz ili operator: " ++ e)) ∧
    (∀ t er, parse (replaceCaret s) = Except.ok t → safe_eval t = Except.error er →
      evaluate_expression parse s = Except.error ("Nevažeći izraz ili operator: " ++ er.msg)) := by
  refine ⟨?_, ?_, ?_⟩
  · rcases hp : parse (replaceCaret s) with e | t
    · exact Or.inr ⟨e, by simp [evaluate_expression, hp]⟩
    · rcases hs : safe_eval t with er | v
      · exact Or.inr ⟨er.msg, by simp [evaluate_expression, hp, hs]⟩
      · exact Or.inl ⟨v, by simp [evaluate_expression, hp, hs]⟩
  · intro e he
    simp [evaluate_expression, he]
  · intro t er ht he
    simp [evaluate_expression, ht, he]

theorem uniform_failure_envelope_witness :
    (fun _ : String => (Except.error "invalid syntax" : Except String PyExpr))
        (replaceCaret "") = Except.error "invalid syntax" ∧
    evaluate_expression (fun _ => Except.error "invalid syntax") ""
      = Except.error ("Nevažeći izraz ili operator: " ++ "invalid syntax") ∧
    evaluate_expression (fun _ => Except.error "invalid syntax") "((("
      = Except.error ("Nevažeći izraz ili operator: " ++ "invalid syntax") :=
  ⟨rfl,
   (uniform_failure_envelope (fun _ => Except.error "invalid syntax") "").2.1 "invalid syntax" rfl,
   (uniform_failure_envelope (fun _ => Except.error "invalid syntax") "(((").2.1 "invalid syntax" rfl⟩

/-- C6: the pipeline first rewrites every caret to the power token, and
that rewrite is idempotent, so evaluating a string and evaluating its
caret-normalized form agree for every parse function; the caret and
double-asterisk spellings of 2 to the 3rd both give 8. -/
theorem caret_normalization (parse : String → Except String PyExpr) (s : String)
    (hp : parse "2**3" = Except.ok (PyExpr.expression
        (.binOp (.constant (.intC 2)) .pow (.constant (.intC 3))))) :
    evaluate_expression parse s = evaluate_expression parse (replaceCaret s) ∧
    evaluate_expression parse "2^3" = Except.ok (PyValue.intV 8) ∧
    evaluate_expression parse "2**3" = Except.ok (PyValue.intV 8) := by
  refine ⟨?_, ?_, ?_⟩
  · rw [evaluate_expression, evaluate_expression, replaceCaret_idem]
  · rw [evaluate_expression, show replaceCaret "2^3" = "2**3" from by decide, hp]
    rfl
  · rw [evaluate_expression, show replaceCaret "2**3" = "2**3" from by decide, hp]
    rfl

theorem caret_normalization_witness :
    (fun _ : String => (Except.ok (PyExpr.expression
        (.binOp (.constant (.intC 2)) .pow (.constant (.intC 3)))) : Except String PyExpr)) "2**3"
      = Except.ok (PyExpr.expression (.binOp (.constant (.intC 2)) .pow (.constant (.intC 3)))) ∧
    (evaluate_expression (fun _ => (Except.ok (PyExpr.expression
        (.binOp (.constant (.intC 2)) .pow (.constant (.intC 3)))) : Except String PyExpr)) "2^3"
      = Except.ok (PyValue.intV 8) ∧
     evaluate_expression (fun _ => (Except.ok (PyExpr.expression
        (.binOp (.constant (.intC 2)) .pow (.constant (.intC 3)))) : Except String PyExpr)) "2**3"
      = Except.ok (PyValue.intV 8)) :=
  ⟨rfl,
   (caret_normalization (fun _ => (Except.ok (PyExpr.expression
      (.binOp (.constant (.intC 2)) .pow (.constant (.intC 3)))) : Except String PyExpr)) "2^3" rfl).2⟩

/-- C7: on two integer operands addition, subtraction, multiplication,
modulo (non-zero divisor) and power (non-negative exponent) return an
integer value, while true division always returns a float value. -/
theorem integer_promotion (a b : Int) :
    applyBin .add (.intV a) (.intV b) = Except.ok (PyValue.intV (a + b)) ∧
    applyBin .sub (.intV a) (.intV b) = Except.ok (PyValue.intV (a - b)) ∧
    applyBin .mult (.intV a) (.intV b) = Except.ok (PyValue.intV (a * b)) ∧
    (b ≠ 0 → applyBin .mod (.intV a) (.intV b) = Except.ok (PyValue.intV (pyIntMod a b))) ∧
    (0 ≤ b → applyBin .pow (.intV a) (.intV b) = Except.ok (PyValue.intV (a ^ b.toNat))) ∧
    (b ≠ 0 → ∃ q : ℚ, applyBin .div (.intV a) (.intV b) = Except.ok (PyValue.floatV q)) := by
  refine ⟨rfl, rfl, rfl, ?_, ?_, ?_⟩
  · intro hb
    simp [applyBin, promote, PyValue.toNum, binArith, hb]
  · intro hb
    simp [applyBin, promote, PyValue.toNum, binArith, intPow, hb]
  · intro hb
    exact ⟨(a : ℚ) / (b : ℚ), by simp [applyBin, promote, PyValue.toNum, binArith, hb]⟩

theorem integer_promotion_witness :
    applyBin .mod (.intV 7) (.intV 2) = Except.ok (PyValue.intV (pyIntMod 7 2)) ∧
    applyBin .pow (.intV 7) (.intV 2) = Except.ok (PyValue.intV ((7 : ℤ) ^ (2 : ℤ).toNat)) ∧
    (∃ q : ℚ, applyBin .div (.intV 7) (.intV 2) = Except.ok (PyValue.floatV q)) :=
  ⟨(integer_promotion 7 2).2.2.2.1 (by decide),
   (integer_promotion 7 2).2.2.2.2.1 (by decide),
   (integer_promotion 7 2).2.2.2.2.2 (by decide)⟩

/-- C9: a non-empty submission appends exactly one line, formatted as
the bracketed timestamp, parenthesized mode, query, arrow and result,
to the end of the history; the previous entries are unchanged and keep
their order. -/
theorem solve_history_append (dispatch : String → String → String) (ts mode rawQuery : String)
    (history : List String) (h : stripStr rawQuery ≠ "") :
    solve_step dispatch ts mode rawQuery history
      = history ++ [historyLine ts mode (stripStr rawQuery) (dispatch mode (stripStr rawQuery))] ∧
    (solve_step dispatch ts mode rawQuery history).length = history.length + 1 ∧
    (∀ i, i < history.length →
      (solve_step dispatch ts mode rawQuery history)[i]? = history[i]?) := by
  have he : solve_step dispatch ts mode rawQuery history
      = history ++ [historyLine ts mode (stripStr rawQuery) (dispatch mode (stripStr rawQuery))] := by
    simp [solve_step, append_history, h]
  refine ⟨he, by simp [he], ?_⟩
  intro i hi
  rw [he]
  exact List.getElem?_append_left hi

theorem solve_history_append_witness :
    stripStr " 1+1 " ≠ "" ∧
    solve_step (fun _ _ => "2") "2024-01-01 12:00:00" "Izraz" " 1+1 " ["old line"]
      = ["old line"] ++ [historyLine "2024-01-01 12:00:00" "Izraz" (stripStr " 1+1 ")
          ((fun _ _ => "2") "Izraz" (stripStr " 1+1 "))] ∧
    (solve_step (fun _ _ => "2") "2024-01-01 12:00:00" "Izraz" " 1+1 " ["old line"]).length
      = (["old line"] : List String).length + 1 :=
  ⟨by decide,
   (solve_history_append (fun _ _ => "2") "2024-01-01 12:00:00" "Izraz" " 1+1 " ["old line"]
      (by decide)).1,
   (solve_history_append (fun _ _ => "2") "2024-01-01 12:00:00" "Izraz" " 1+1 " ["old line"]
      (by decide)).2.1⟩

/-- C10: the recursive walk terminates on every finite tree: with fuel
at least the recursion depth, the fuel-indexed evaluator finishes and
agrees with the total function `safe_eval`. -/
theorem safe_eval_terminating (t : PyExpr) (fuel : Nat) (h : t.evalDepth ≤ fuel) :
    safeEvalFuel fuel t = some (safe_eval t) :=
  safeEvalFuel_complete t fuel h

theorem safe_eval_terminating_witness :
    (PyExpr.expression (.binOp (.constant (.intC 4)) .pow (.constant (.intC 2)))).evalDepth ≤ 3 ∧
    safeEvalFuel 3 (PyExpr.expression (.binOp (.constant (.intC 4)) .pow (.constant (.intC 2))))
      = some (safe_eval (PyExpr.expression (.binOp (.constant (.intC 4)) .pow (.constant (.intC 2))))) :=
  ⟨by decide,
   safe_eval_terminating (PyExpr.expression (.binOp (.constant (.intC 4)) .pow (.constant (.intC 2))))
     3 (by decide)⟩

theorem solve_text_problem_shape (text : String) :
    (∃ m, solve_text_problem text = "Rezultat: " ++ m) ∨
    (∃ m, solve_text_problem text = "Površina = " ++ m) ∨
    solve_text_problem text
      = "Ne mogu automatski rešiti ovaj tekstualni zadatak (probaj preciznije)." := by
  simp only [solve_text_problem]
  cases hb1 : containsSub (lowerStr text) "km/h" || containsSub (lowerStr text) "kmh" ||
      (containsSub (lowerStr text) "km" && containsSub (lowerStr text) "h") with
  | true =>
      rcases hn : extractNums (lowerStr text) with _ | ⟨a, _ | ⟨b, rest⟩⟩
      · cases hb2 : containsSub (lowerStr text) "povrsin" || containsSub (lowerStr text) "površin" ||
            containsSub (lowerStr text) "area" with
        | true => simp [hb1, hb2, hn]
        | false => simp [hb1, hb2, hn]
      · cases hb2 : containsSub (lowerStr text) "povrsin" || containsSub (lowerStr text) "površin" ||
            containsSub (lowerStr text) "area" with
        | true => simp [hb1, hb2, hn]
        | false => simp [hb1, hb2, hn]
      · refine Or.inl ⟨toString (a * b) ++ " (km)", ?_⟩
        simp [hb1, hn, String.append_assoc]
  | false =>
      cases hb2 : containsSub (lowerStr text) "povrsin" || containsSub (lowerStr text) "površin" ||
          containsSub (lowerStr text) "area" with
      | true =>
          rcases hn : extractNums (lowerStr text) with _ | ⟨a, _ | ⟨b, rest⟩⟩
          · simp [hb1, hb2, hn]
          · simp [hb1, hb2, hn]
          · refine Or.inr (Or.inl ⟨toString (a * b), ?_⟩)
            simp [hb1, hb2, hn]
      | false => simp [hb1, hb2]

theorem solve_equation_shape {α : Type} (sympifyF : String → Except String α)
    (freeSymbolsF : α → α → List String) (evalfDiffF : α → α → Except String ℚ)
    (solveF : α → α → List String → Except String String) (equation_str : String) :
    solve_equation sympifyF freeSymbolsF evalfDiffF solveF equation_str
      = "Istinitost: identično tačno (nema promenljivih)." ∨
    solve_equation sympifyF freeSymbolsF evalfDiffF solveF equation_str
      = "Nema rešenja (nije jednako)." ∨
    (∃ m, solve_equation sympifyF freeSymbolsF evalfDiffF solveF equation_str
      = "Rešenje: " ++ m) ∨
    (∃ m, solve_equation sympifyF freeSymbolsF evalfDiffF solveF equation_str
      = "Greška pri rešavanju: " ++ m) := by
  simp only [solve_equation]
  cases hc : (replaceCaret equation_str).contains '=' with
  | false =>
      refine Or.inr (Or.inr (Or.inr ⟨"Jednačina mora sadržati '='.", ?_⟩))
      rfl
  | true =>
      simp only [hc, Bool.not_true, Bool.false_eq_true, if_false]
      rcases h1 : sympifyF (splitFirstEq (replaceCaret equation_str)).1 with e1 | la
      · exact Or.inr (Or.inr (Or.inr ⟨e1, by simp [h1]⟩))
      · rcases h2 : sympifyF (splitFirstEq (replaceCaret equation_str)).2 with e2 | ra
        · exact Or.inr (Or.inr (Or.inr ⟨e2, by simp [h1, h2]⟩))
        · rcases h3 : freeSymbolsF la ra with _ | ⟨v0, vs⟩
          · rcases h4 : evalfDiffF la ra with e4 | w
            · exact Or.inr (Or.inr (Or.inr ⟨e4, by simp [h1, h2, h3, h4]⟩))
            · by_cases h5 : |w| < 1 / 1000000000
              · refine Or.inl ?_
                simp only [h1, h2, h3, h4]
                rw [if_pos h5]
              · refine Or.inr (Or.inl ?_)
                simp only [h1, h2, h3, h4]
                rw [if_neg h5]
          · rcases h4 : solveF la ra (v0 :: vs) with e4 | sol
            · exact Or.inr (Or.inr (Or.inr ⟨e4, by simp [h1, h2, h3, h4]⟩))
            · exact Or.inr (Or.inr (Or.inl ⟨sol, by simp [h1, h2, h3, h4]⟩))

/-- C8: both auxiliary solvers are total text-valued functions whatever
the input and whatever the external sympy collaborator does: the
equation solver returns one of its two no-variable verdicts, a rendered
solution, or the catch-all error message (every raise inside its body is
caught and converted to the latter); the word-problem heuristic returns
a speed-times-time result, an area result, or the fixed cannot-solve
message. -/
theorem solvers_fail_soft {α : Type} (sympifyF : String → Except String α)
    (freeSymbolsF : α → α → List String) (evalfDiffF : α → α → Except String ℚ)
    (solveF : α → α → List String → Except String String)
    (equation_str text : String) :
    (solve_equation sympifyF freeSymbolsF evalfDiffF solveF equation_str
        = "Istinitost: identično tačno (nema promenljivih)." ∨
     solve_equation sympifyF freeSymbolsF evalfDiffF solveF equation_str
        = "Nema rešenja (nije jednako)." ∨
     (∃ m, solve_equation sympifyF freeSymbolsF evalfDiffF solveF equation_str
        = "Rešenje: " ++ m) ∨
     (∃ m, solve_equation sympifyF freeSymbolsF evalfDiffF solveF equation_str
        = "Greška pri rešavanju: " ++ m)) ∧
    ((∃ m, solve_text_problem text = "Rezultat: " ++ m) ∨
     (∃ m, solve_text_problem text = "Površina = " ++ m) ∨
     solve_text_problem text
        = "Ne mogu automatski rešiti ovaj tekstualni zadatak (probaj preciznije).") :=
  ⟨solve_equation_shape sympifyF freeSymbolsF evalfDiffF solveF equation_str,
   solve_text_problem_shape text⟩
end Kalkulator
